import Mathlib

/-!
Shallow embedding of the real-time-collaboration SDK core in Lean 4.

The definitions below translate the TypeScript sources of the repository:
text, list and map operation algebras (transform, compose, apply), the
shared data types (SharedText, SharedList, SharedMap), the client-side
document (CollabDocument), the server-side document manager, and the
server join gate (MessageHandler and AuthService).  Strings of text
content are modelled as lists of characters; JavaScript `substring`
clamping is mirrored by `List.take` and `List.drop`.  Positions, lengths
and versions are natural numbers except where the source validates
possibly-negative inputs, where `Int` is used.
-/

namespace RTC

/-- Metadata fields carried by every operation in the source
(`Operation` in types/base.ts): id, clientId, baseVersion, timestamp. -/
structure OpMeta where
  id : String
  clientId : String
  baseVersion : Nat
  timestamp : Nat
deriving DecidableEq, Repr

/-- Result of transforming one operation against another
(`TransformResult` in types/base.ts). -/
structure TransformResult (α : Type) where
  operation : α
  wasTransformed : Bool
deriving DecidableEq, Repr

/-- Payload of a text operation: insert, delete or retain
(types/text-operations.ts). -/
inductive TextOpKind where
  | insert (position : Nat) (text : List Char)
  | delete (position : Nat) (length : Nat)
  | retain (position : Nat) (length : Nat)
deriving DecidableEq, Repr

/-- A text operation: common metadata plus a payload. -/
structure TextOp where
  meta : OpMeta
  kind : TextOpKind
deriving DecidableEq, Repr

/-- Transform Delete against Delete (text-transform.ts,
transformDeleteDelete), including the source's nested conditional for
the new position and the clamp of a negative residual length to zero. -/
def transformDeleteDelete (operationA : TextOp) (pA lA pB lB : Nat) :
    TransformResult TextOp :=
  let aStart := pA
  let aEnd := pA + lA
  let bStart := pB
  let bEnd := pB + lB
  if bStart ≥ aEnd then
    ⟨operationA, false⟩
  else if bEnd ≤ aStart then
    ⟨{ operationA with kind := .delete (pA - lB) lA }, true⟩
  else
    let overlapStart := max aStart bStart
    let overlapEnd := min aEnd bEnd
    let overlapLength := overlapEnd - overlapStart
    if overlapLength > 0 then
      let newLength := lA - overlapLength
      let newPosition :=
        if bStart < aStart then
          aStart - (if bStart < aStart then min lB (aStart - bStart) else 0)
        else aStart
      if lA ≤ overlapLength then
        ⟨{ operationA with kind := .delete newPosition 0 }, true⟩
      else
        ⟨{ operationA with kind := .delete newPosition newLength }, true⟩
    else
      ⟨operationA, false⟩

/-- Transform text operation A against text operation B
(text-transform.ts, transformTextOperation and its four pairwise
helpers; retain and the default case return A unchanged). -/
def transformTextOperation (operationA operationB : TextOp) :
    TransformResult TextOp :=
  match operationA.kind, operationB.kind with
  | .insert pA tA, .insert pB tB =>
      if pA ≤ pB then ⟨operationA, false⟩
      else ⟨{ operationA with kind := .insert (pA + tB.length) tA }, true⟩
  | .insert pA tA, .delete pB lB =>
      if pA ≤ pB then ⟨operationA, false⟩
      else if pA ≥ pB + lB then
        ⟨{ operationA with kind := .insert (pA - lB) tA }, true⟩
      else ⟨{ operationA with kind := .insert pB tA }, true⟩
  | .delete pA lA, .insert pB tB =>
      if pB ≤ pA then
        ⟨{ operationA with kind := .delete (pA + tB.length) lA }, true⟩
      else if pB ≥ pA + lA then ⟨operationA, false⟩
      else ⟨{ operationA with kind := .delete pA (lA + tB.length) }, true⟩
  | .delete pA lA, .delete pB lB => transformDeleteDelete operationA pA lA pB lB
  | _, _ => ⟨operationA, false⟩

/-- Application of a text operation to a character list by string
splicing, as in SharedText.apply; JavaScript substring clamps on both
sides, which List.take and List.drop reproduce. -/
def applyTextOp (operation : TextOp) (s : List Char) : List Char :=
  match operation.kind with
  | .insert p t => s.take p ++ t ++ s.drop p
  | .delete p l => s.take p ++ s.drop (p + l)
  | .retain _ _ => s

/-- Whether two consecutive text operations can merge (text-transform.ts,
canMergeOperations): same client, and either adjacent inserts or deletes
at the same position. -/
def canMergeOperations (op1 op2 : TextOp) : Bool :=
  if op1.meta.clientId ≠ op2.meta.clientId then false
  else
    match op1.kind, op2.kind with
    | .insert p1 t1, .insert p2 _ => p1 + t1.length == p2
    | .delete p1 _, .delete p2 _ => p1 == p2
    | _, _ => false

/-- Merge two compatible text operations (text-transform.ts,
mergeOperations): concatenated text for inserts, summed length for
deletes; anything else returns the first operation. -/
def mergeOperations (op1 op2 : TextOp) : TextOp :=
  match op1.kind, op2.kind with
  | .insert p1 t1, .insert _ t2 => { op1 with kind := .insert p1 (t1 ++ t2) }
  | .delete p1 l1, .delete _ l2 => { op1 with kind := .delete p1 (l1 + l2) }
  | _, _ => op1

/-- Loop body of composeTextOperations: keep merging the current
operation with the next while possible, emitting it when not. -/
def composeLoop (current : TextOp) : List TextOp → List TextOp
  | [] => [current]
  | next :: rest =>
      if canMergeOperations current next then
        composeLoop (mergeOperations current next) rest
      else current :: composeLoop next rest

/-- Compose a sequence of text operations (text-transform.ts,
composeTextOperations). -/
def composeTextOperations (operations : List TextOp) : List TextOp :=
  match operations with
  | [] => []
  | op0 :: rest => composeLoop op0 rest

/-- Payload of a list operation (types/list-operations.ts): insert,
delete (with optional count), replace, move. -/
inductive ListOpKind (α : Type) where
  | insert (index : Nat) (item : α)
  | delete (index : Nat) (count : Option Nat)
  | replace (index : Nat) (item : α) (oldItem : Option α)
  | move (index : Nat) (targetIndex : Nat)
deriving DecidableEq, Repr

/-- A list operation: common metadata plus a payload. -/
structure ListOp (α : Type) where
  meta : OpMeta
  kind : ListOpKind α
deriving DecidableEq, Repr

/-- JavaScript defaulting of an optional count: the expression
`operation.count || 1` yields 1 both for a missing count and for an
explicit count of 0. -/
def countOr1 (c : Option Nat) : Nat :=
  match c with
  | none => 1
  | some n => if n == 0 then 1 else n

/-- Index stored in a list operation payload (every payload has one;
mirrors the `'index' in transformed` access in list-transform.ts). -/
def ListOpKind.index : ListOpKind α → Nat
  | .insert i _ => i
  | .delete i _ => i
  | .replace i _ _ => i
  | .move i _ => i

/-- Replace the stored index of a list operation payload, keeping the
other fields, as the object spread in list-transform.ts does. -/
def ListOpKind.withIndex (k : ListOpKind α) (i : Nat) : ListOpKind α :=
  match k with
  | .insert _ item => .insert i item
  | .delete _ c => .delete i c
  | .replace _ item old => .replace i item old
  | .move _ t => .move i t

/-- Transform a list Replace operation against another list operation
(list-transform.ts, transformReplace).  In the replace-versus-replace
branch of the source both arms of the tie-break return the operation
unchanged and untransformed. -/
def transformReplace (operationA : ListOp α) (iA : Nat) (operationB : ListOp α) :
    TransformResult (ListOp α) :=
  match operationB.kind with
  | .insert iB _ =>
      if iB ≤ iA then
        ⟨{ operationA with kind := operationA.kind.withIndex (iA + 1) }, true⟩
      else ⟨operationA, false⟩
  | .delete iB cB =>
      let deleteCount := countOr1 cB
      if iA ≥ iB ∧ iA < iB + deleteCount then ⟨operationA, false⟩
      else if iA ≥ iB + deleteCount then
        ⟨{ operationA with kind := operationA.kind.withIndex (iA - deleteCount) }, true⟩
      else ⟨operationA, false⟩
  | .replace iB _ _ =>
      if iB == iA then ⟨operationA, false⟩ else ⟨operationA, false⟩
  | .move _ _ => ⟨operationA, false⟩

/-- Transform a list Move operation against another list operation
(list-transform.ts, transformMove). -/
def transformMove (operationA : ListOp α) (s t : Nat) (operationB : ListOp α) :
    TransformResult (ListOp α) :=
  match operationB.kind with
  | .insert iB _ =>
      let sourceIndex := if iB ≤ s then s + 1 else s
      let targetIndex := if iB ≤ t then t + 1 else t
      let wasTransformed := iB ≤ s ∨ iB ≤ t
      if wasTransformed then
        ⟨{ operationA with kind := .move sourceIndex targetIndex }, true⟩
      else ⟨operationA, false⟩
  | .delete iB cB =>
      let deleteCount := countOr1 cB
      if s ≥ iB ∧ s < iB + deleteCount then ⟨operationA, false⟩
      else
        let sourceIndex := if s ≥ iB + deleteCount then s - deleteCount else s
        let sourceMoved := s ≥ iB + deleteCount
        let targetIndex :=
          if t ≥ iB + deleteCount then t - deleteCount
          else if t ≥ iB then iB
          else t
        let targetMoved := t ≥ iB + deleteCount ∨ t ≥ iB
        if sourceMoved ∨ targetMoved then
          ⟨{ operationA with kind := .move sourceIndex targetIndex }, true⟩
        else ⟨operationA, false⟩
  | _ => ⟨operationA, false⟩

/-- Transform a list operation against a Move operation
(list-transform.ts, transformAgainstMove). -/
def transformAgainstMove (operationA : ListOp α) (s t : Nat) :
    TransformResult (ListOp α) :=
  if s == t then ⟨operationA, false⟩
  else
    let opIndex := operationA.kind.index
    if s < t then
      if opIndex == s then
        ⟨{ operationA with kind := operationA.kind.withIndex t }, true⟩
      else if opIndex > s ∧ opIndex ≤ t then
        ⟨{ operationA with kind := operationA.kind.withIndex (opIndex - 1) }, true⟩
      else ⟨operationA, false⟩
    else
      if opIndex == s then
        ⟨{ operationA with kind := operationA.kind.withIndex t }, true⟩
      else if opIndex ≥ t ∧ opIndex < s then
        ⟨{ operationA with kind := operationA.kind.withIndex (opIndex + 1) }, true⟩
      else ⟨operationA, false⟩

/-- Transform list operation A against list operation B
(list-transform.ts, transformListOperation); the match arms follow the
dispatch order of the source. -/
def transformListOperation (operationA operationB : ListOp α) :
    TransformResult (ListOp α) :=
  match operationA.kind, operationB.kind with
  | .insert iA _, .insert iB _ =>
      if iA ≤ iB then ⟨operationA, false⟩
      else ⟨{ operationA with kind := operationA.kind.withIndex (iA + 1) }, true⟩
  | .insert iA _, .delete iB cB =>
      let deleteCount := countOr1 cB
      if iA ≤ iB then ⟨operationA, false⟩
      else if iA ≥ iB + deleteCount then
        ⟨{ operationA with kind := operationA.kind.withIndex (iA - deleteCount) }, true⟩
      else ⟨{ operationA with kind := operationA.kind.withIndex iB }, true⟩
  | .delete iA cA, .insert iB _ =>
      let deleteCount := countOr1 cA
      if iB ≤ iA then
        ⟨{ operationA with kind := operationA.kind.withIndex (iA + 1) }, true⟩
      else if iB ≥ iA + deleteCount then ⟨operationA, false⟩
      else ⟨operationA, false⟩
  | .delete iA cA, .delete iB cB =>
      let aCount := countOr1 cA
      let bCount := countOr1 cB
      let aStart := iA
      let aEnd := iA + aCount
      let bStart := iB
      let bEnd := iB + bCount
      if bStart ≥ aEnd then ⟨operationA, false⟩
      else if bEnd ≤ aStart then
        ⟨{ operationA with kind := operationA.kind.withIndex (iA - bCount) }, true⟩
      else
        let overlapStart := max aStart bStart
        let overlapEnd := min aEnd bEnd
        let overlapCount := overlapEnd - overlapStart
        if overlapCount > 0 then
          let newCount := aCount - overlapCount
          let newIndex :=
            if bStart < aStart then aStart - min bCount (aStart - bStart) else aStart
          if aCount ≤ overlapCount then
            ⟨{ operationA with kind := .delete newIndex (some 0) }, true⟩
          else
            ⟨{ operationA with kind := .delete newIndex (some newCount) }, true⟩
        else ⟨operationA, false⟩
  | .replace iA _ _, _ => transformReplace operationA iA operationB
  | _, .replace _ _ _ => ⟨operationA, false⟩
  | .move s t, _ => transformMove operationA s t operationB
  | _, .move s t => transformAgainstMove operationA s t

/-- Payload of a non-batch map operation: set or delete a key
(types/map-operations.ts); previousValue is optional, with `none`
standing for the JavaScript `undefined`. -/
inductive MapSubKind (β : Type) where
  | set (key : String) (value : β) (previousValue : Option β)
  | delete (key : String) (previousValue : Option β)
deriving DecidableEq, Repr

/-- A set or delete map operation with its metadata; these are the
operations a map-batch carries. -/
structure MapSubOp (β : Type) where
  meta : OpMeta
  kind : MapSubKind β
deriving DecidableEq, Repr

/-- Payload of a map operation: a single set or delete, or an atomic
batch of them. -/
inductive MapOpKind (β : Type) where
  | sub (k : MapSubKind β)
  | batch (operations : List (MapSubOp β))
deriving DecidableEq, Repr

/-- A map operation: common metadata plus a payload. -/
structure MapOp (β : Type) where
  meta : OpMeta
  kind : MapOpKind β
deriving DecidableEq, Repr

/-- JavaScript string comparison `a < b` (lexicographic over code
units), used by the map transforms for clientId tie-breaking. -/
def jsStrLtChars : List Char → List Char → Bool
  | [], [] => false
  | [], _ :: _ => true
  | _ :: _, [] => false
  | a :: as, b :: bs =>
      if a.toNat < b.toNat then true
      else if b.toNat < a.toNat then false
      else jsStrLtChars as bs

/-- String comparison on the underlying character lists. -/
def jsStrLt (a b : String) : Bool := jsStrLtChars a.data b.data

/-- The timestamp-then-clientId test the map transforms use for
conflict resolution: A.timestamp > B.timestamp, or equal timestamps and
A.clientId > B.clientId. -/
def mapTieBreak (mA mB : OpMeta) : Bool :=
  mB.timestamp < mA.timestamp ||
    (mA.timestamp == mB.timestamp && jsStrLt mB.clientId mA.clientId)

/-- Transform one non-batch map operation against another
(map-transform.ts: transformSetSet, transformSetDelete,
transformDeleteSet, transformDeleteDelete).  Note that in the source
the losing side of a set/set or delete/delete conflict is still
returned unchanged, only flagged as transformed. -/
def transformMapFlat (operationA operationB : MapSubOp β) :
    TransformResult (MapSubOp β) :=
  match operationA.kind, operationB.kind with
  | .set kA vA _, .set kB vB _ =>
      if kA ≠ kB then ⟨operationA, false⟩
      else if mapTieBreak operationA.meta operationB.meta then
        ⟨{ operationA with kind := .set kA vA (some vB) }, true⟩
      else ⟨operationA, true⟩
  | .set kA vA _, .delete kB _ =>
      if kA ≠ kB then ⟨operationA, false⟩
      else ⟨{ operationA with kind := .set kA vA none }, true⟩
  | .delete kA _, .set kB vB _ =>
      if kA ≠ kB then ⟨operationA, false⟩
      else ⟨{ operationA with kind := .delete kA (some vB) }, true⟩
  | .delete kA _, .delete kB _ =>
      if kA ≠ kB then ⟨operationA, false⟩
      else if mapTieBreak operationA.meta operationB.meta then ⟨operationA, false⟩
      else ⟨operationA, true⟩

/-- Transform a non-batch map operation against a possibly-batch map
operation: against a batch it is transformed by each sub-operation in
order (map-transform.ts, transformAgainstBatch). -/
def transformSubVsOp (s : MapSubOp β) (operationB : MapOp β) :
    TransformResult (MapSubOp β) :=
  match operationB.kind with
  | .sub kb => transformMapFlat s ⟨operationB.meta, kb⟩
  | .batch bs =>
      let r := bs.foldl
        (fun (acc : MapSubOp β × Bool) sb =>
          let res := transformMapFlat acc.1 sb
          (res.operation, acc.2 || res.wasTransformed))
        (s, false)
      ⟨r.1, r.2⟩

/-- Transform map operation A against map operation B
(map-transform.ts, transformMapOperation): a batch A transforms each of
its sub-operations against B; a non-batch A is transformed against B
directly (or against each of B's sub-operations when B is a batch). -/
def transformMapOperation (operationA operationB : MapOp β) :
    TransformResult (MapOp β) :=
  match operationA.kind with
  | .batch subs =>
      let results := subs.map (fun s => transformSubVsOp s operationB)
      let wasTransformed := results.any (·.wasTransformed)
      if wasTransformed then
        ⟨{ operationA with kind := .batch (results.map (·.operation)) }, true⟩
      else ⟨operationA, false⟩
  | .sub k =>
      let res := transformSubVsOp ⟨operationA.meta, k⟩ operationB
      ⟨⟨res.operation.meta, .sub res.operation.kind⟩, res.wasTransformed⟩

/-- State of a SharedText instance: current value, version and owning
client id. -/
structure SharedTextState where
  value : List Char
  version : Nat
  clientId : String
deriving DecidableEq, Repr

namespace SharedText

/-- SharedText.apply: splice the value per the operation, then bump the
version to baseVersion + 1 when the operation is based on a version at
least as new as the current one.  Events are effects and are not
modelled. -/
def apply (st : SharedTextState) (operation : TextOp) : SharedTextState :=
  let newValue :=
    match operation.kind with
    | .insert p t => st.value.take p ++ t ++ st.value.drop p
    | .delete p l => st.value.take p ++ st.value.drop (p + l)
    | .retain _ _ => st.value
  { st with
    value := newValue
    version :=
      if operation.meta.baseVersion ≥ st.version then operation.meta.baseVersion + 1
      else st.version }

/-- SharedText.delete: validate the position and length, clamp the
length to the characters remaining after the position, build the delete
operation and apply it.  Validation failures (thrown errors in the
source) are `none`.  The generated unique operation id is modelled as
the client id, and the wall-clock timestamp as zero. -/
def delete (st : SharedTextState) (position length : Int) :
    Option (TextOp × SharedTextState) :=
  if position < 0 ∨ position ≥ (st.value.length : Int) then none
  else if length ≤ 0 then none
  else
    let actualLength : Int := min length ((st.value.length : Int) - position)
    let operation : TextOp :=
      ⟨⟨st.clientId, st.clientId, st.version, 0⟩,
        .delete position.toNat actualLength.toNat⟩
    some (operation, apply st operation)

end SharedText

/-- State of a SharedList instance. -/
structure SharedListState (α : Type) where
  items : List α
  version : Nat
  clientId : String
deriving DecidableEq, Repr

namespace SharedList

/-- SharedList.apply: splice the items per the operation, then apply the
same version rule as the other shared types.  An out-of-range replace or
move is modelled as leaving the items unchanged (the source's array
write at an out-of-range index has no observable item at any valid
index). -/
def apply (st : SharedListState α) (operation : ListOp α) : SharedListState α :=
  let newItems :=
    match operation.kind with
    | .insert i item => st.items.take i ++ [item] ++ st.items.drop i
    | .delete i c => st.items.take i ++ st.items.drop (i + countOr1 c)
    | .replace i item _ => st.items.set i item
    | .move i t =>
        match st.items.get? i with
        | some moved =>
            let removed := st.items.take i ++ st.items.drop (i + 1)
            removed.take t ++ [moved] ++ removed.drop t
        | none => st.items
  { st with
    items := newItems
    version :=
      if operation.meta.baseVersion ≥ st.version then operation.meta.baseVersion + 1
      else st.version }

/-- SharedList.delete: validate the index and count, clamp the count to
the items remaining after the index, build the delete operation and
apply it; validation failures are `none`. -/
def delete (st : SharedListState α) (index count : Int) :
    Option (ListOp α × SharedListState α) :=
  if index < 0 ∨ index ≥ (st.items.length : Int) then none
  else if count ≤ 0 then none
  else
    let actualCount : Int := min count ((st.items.length : Int) - index)
    let operation : ListOp α :=
      ⟨⟨st.clientId, st.clientId, st.version, 0⟩,
        .delete index.toNat (some actualCount.toNat)⟩
    some (operation, apply st operation)

end SharedList

/-- State of a SharedMap instance; the JavaScript object is modelled as
an insertion-ordered association list. -/
structure SharedMapState (β : Type) where
  data : List (String × β)
  version : Nat
  clientId : String
deriving DecidableEq, Repr

/-- Assignment to a key of a JavaScript object: an existing key keeps
its place with the new value, a new key is appended. -/
def mapAssign (m : List (String × β)) (k : String) (v : β) : List (String × β) :=
  if m.any (fun e => e.1 == k) then
    m.map (fun e => if e.1 == k then (k, v) else e)
  else m ++ [(k, v)]

/-- Deletion of a key from a JavaScript object. -/
def mapRemove (m : List (String × β)) (k : String) : List (String × β) :=
  m.filter (fun e => !(e.1 == k))

/-- Application of a set or delete to the underlying object. -/
def applyMapSub (m : List (String × β)) : MapSubKind β → List (String × β)
  | .set k v _ => mapAssign m k v
  | .delete k _ => mapRemove m k

namespace SharedMap

/-- SharedMap.apply: set, delete, or run a batch of sub-operations in
order, then apply the common version rule. -/
def apply (st : SharedMapState β) (operation : MapOp β) : SharedMapState β :=
  let newData :=
    match operation.kind with
    | .sub k => applyMapSub st.data k
    | .batch subs => subs.foldl (fun m s => applyMapSub m s.kind) st.data
  { st with
    data := newData
    version :=
      if operation.meta.baseVersion ≥ st.version then operation.meta.baseVersion + 1
      else st.version }

end SharedMap

/-- The operation union shipped between client and server: the type tag
prefix (text-, list-, map-) of the source becomes the constructor. -/
inductive Operation (α β : Type) where
  | text (op : TextOp)
  | list (op : ListOp α)
  | map (op : MapOp β)
deriving DecidableEq, Repr

/-- Base version of an operation irrespective of its kind. -/
def Operation.baseVersion : Operation α β → Nat
  | .text op => op.meta.baseVersion
  | .list op => op.meta.baseVersion
  | .map op => op.meta.baseVersion

/-- The shared data held by a client-side document: one of the three
shared types (composite documents hold one such field per key and are
not needed by the claims). -/
inductive SharedDataState (α β : Type) where
  | text (st : SharedTextState)
  | list (st : SharedListState α)
  | map (st : SharedMapState β)
deriving DecidableEq, Repr

/-- State of a client-side CollabDocument: its shared data, version and
pending local operations. -/
structure CollabDoc (α β : Type) where
  sharedData : SharedDataState α β
  version : Nat
  pendingOperations : List (Operation α β)
deriving DecidableEq, Repr

namespace CollabDocument

/-- CollabDocument.transformOperation: dispatch on the type-tag
prefixes; operations of different kinds are returned unchanged. -/
def transformOperation (operationA operationB : Operation α β) : Operation α β :=
  match operationA, operationB with
  | .text a, .text b => .text (transformTextOperation a b).operation
  | .list a, .list b => .list (transformListOperation a b).operation
  | .map a, .map b => .map (transformMapOperation a b).operation
  | _, _ => operationA

/-- CollabDocument.applyOperationToSharedData: apply the operation to
the shared type of the matching kind; a mismatched kind is a no-op. -/
def applyOperationToSharedData (sd : SharedDataState α β)
    (operation : Operation α β) : SharedDataState α β :=
  match sd, operation with
  | .text st, .text op => .text (SharedText.apply st op)
  | .list st, .list op => .list (SharedList.apply st op)
  | .map st, .map op => .map (SharedMap.apply st op)
  | _, _ => sd

/-- CollabDocument.applyRemoteOperation: transform the inbound
operation against each pending local operation in order, apply the
result to the shared data, and raise the version to
max(version, baseVersion + 1). -/
def applyRemoteOperation (doc : CollabDoc α β) (operation : Operation α β) :
    CollabDoc α β :=
  let transformedOperation :=
    doc.pendingOperations.foldl (fun acc p => transformOperation acc p) operation
  { doc with
    sharedData := applyOperationToSharedData doc.sharedData transformedOperation
    version := max doc.version (operation.baseVersion + 1) }

end CollabDocument

/-- Server-side document state, restricted to the fields the transform
path reads: the current version and the retained operation history. -/
structure ServerDocumentState (α β : Type) where
  version : Nat
  operations : List (Operation α β)
deriving DecidableEq, Repr

namespace DocumentManager

/-- DocumentManager.transformOperationPair: the source returns the
first operand unchanged (its comment defers the real per-kind transform
to a full implementation). -/
def transformOperationPair (opA opB : Operation α β) : Operation α β := opA

/-- DocumentManager.transformOperation: filter the retained history to
operations whose stored baseVersion is at least the inbound operation's
baseVersion, then fold transformOperationPair over them. -/
def transformOperation (document : ServerDocumentState α β)
    (operation : Operation α β) : Operation α β :=
  let laterOperations :=
    document.operations.filter (fun op => decide (op.baseVersion ≥ operation.baseVersion))
  laterOperations.foldl (fun t l => transformOperationPair t l) operation

end DocumentManager

/-- Error codes of the server wire protocol (server-types.ts). -/
inductive ErrorCode where
  | unauthorized
  | forbidden
  | documentNotFound
  | invalidOperation
  | rateLimited
  | serverError
deriving DecidableEq, Repr

/-- State of the AuthService: whether authentication is required and
the registry of authenticated clients (populated only by
handleAuthenticate in the source). -/
structure AuthServiceState where
  required : Bool
  authenticatedClients : List String
deriving DecidableEq, Repr

namespace AuthService

/-- AuthService.isClientAuthenticated: membership in the
authenticated-clients registry. -/
def isClientAuthenticated (s : AuthServiceState) (clientId : String) : Bool :=
  s.authenticatedClients.contains clientId

/-- AuthService.canAccessDocument: every authenticated client can
access any document. -/
def canAccessDocument (s : AuthServiceState) (clientId : String)
    (documentId : String) : Bool :=
  isClientAuthenticated s clientId

end AuthService

/-- Outcome of a JOIN_DOCUMENT message: an error sent back to the
client, or a successful join. -/
inductive JoinResult where
  | errorMsg (code : ErrorCode) (message : String)
  | joined (documentId : String)
deriving DecidableEq, Repr

namespace MessageHandler

/-- MessageHandler.handleJoinDocument, reduced to its gating and
membership effect: the UNAUTHORIZED gate when authentication is
required, then the canAccessDocument gate (FORBIDDEN), then the client
is added to the document's client set. -/
def handleJoinDocument (auth : AuthServiceState) (docClients : List String)
    (client documentId : String) : JoinResult × List String :=
  if auth.required && !(AuthService.isClientAuthenticated auth client) then
    (.errorMsg .unauthorized "Authentication required", docClients)
  else if !(AuthService.canAccessDocument auth client documentId) then
    (.errorMsg .forbidden "Access denied to document", docClients)
  else
    (.joined documentId,
      if docClients.contains client then docClients else docClients ++ [client])

end MessageHandler

/-- Folding the stubbed server transform over any history returns the
inbound operation unchanged. -/
theorem foldl_transformOperationPair (x : Operation α β) (l : List (Operation α β)) :
    l.foldl (fun t lop => DocumentManager.transformOperationPair t lop) x = x := by
  induction l generalizing x with
  | nil => rfl
  | cons a as ih => simpa [DocumentManager.transformOperationPair] using ih x

/-- Splicing an insert at the end position of a previous insert equals a
single insert of the concatenated text. -/
theorem splice_insert_insert (s t1 t2 : List Char) (p : Nat) :
    ((s.take p ++ t1 ++ s.drop p).take (p + t1.length)) ++ t2 ++
        ((s.take p ++ t1 ++ s.drop p).drop (p + t1.length)) =
      s.take p ++ (t1 ++ t2) ++ s.drop p := by
  rcases le_or_lt p s.length with h | h
  · have hlen : (s.take p ++ t1).length = p + t1.length := by
      simp [List.length_take, Nat.min_eq_left h]
    rw [show s.take p ++ t1 ++ s.drop p = (s.take p ++ t1) ++ s.drop p from by
          simp [List.append_assoc],
        List.take_left' hlen, List.drop_left' hlen]
    simp [List.append_assoc]
  · have ht : s.take p = s := List.take_of_length_le (Nat.le_of_lt h)
    have hd : s.drop p = [] := List.drop_of_length_le (Nat.le_of_lt h)
    rw [ht, hd]
    have h1 : (s ++ t1 ++ []).take (p + t1.length) = s ++ t1 ++ [] :=
      List.take_of_length_le (by simp; omega)
    have h2 : (s ++ t1 ++ []).drop (p + t1.length) = [] :=
      List.drop_of_length_le (by simp; omega)
    rw [h1, h2]
    simp [List.append_assoc]

/-- Splicing out a second delete at the same position as a previous
delete equals a single delete of the summed length. -/
theorem splice_delete_delete (s : List Char) (p l1 l2 : Nat) :
    ((s.take p ++ s.drop (p + l1)).take p) ++
        ((s.take p ++ s.drop (p + l1)).drop (p + l2)) =
      s.take p ++ s.drop (p + (l1 + l2)) := by
  rcases le_or_lt p s.length with h | h
  · have hlen : (s.take p).length = p := by
      simp [List.length_take, Nat.min_eq_left h]
    rw [List.take_left' hlen]
    congr 1
    rw [List.drop_append_eq_append_drop, hlen]
    have h2 : (s.take p).drop (p + l2) = [] :=
      List.drop_of_length_le (by rw [hlen]; omega)
    have h3 : p + l2 - p = l2 := by omega
    rw [h2, List.nil_append, h3, List.drop_drop]
    congr 1
    omega
  · have ht : s.take p = s := List.take_of_length_le (Nat.le_of_lt h)
    have hd1 : s.drop (p + l1) = [] := List.drop_of_length_le (by omega)
    have hd2 : s.drop (p + (l1 + l2)) = [] := List.drop_of_length_le (by omega)
    rw [ht, hd1, hd2, List.append_nil]
    rw [List.drop_of_length_le (show s.length ≤ p + l2 by omega), List.append_nil, ht]

/-- Claim C1 (code bug evaluation): TP1 fails for the code's text
transform at two concurrent inserts at the same position with the same
baseVersion.  Starting from the empty string, applying insert(0, X) by
client a and then the transform of insert(0, Y) by client b yields a
different string than the opposite order, because transformInsertInsert
leaves both operations unchanged at equal positions. -/
theorem tp1_fails_on_equal_position_inserts :
    applyTextOp
        (transformTextOperation
          ⟨⟨"c2", "b", 0, 100⟩, .insert 0 ['Y']⟩
          ⟨⟨"c1", "a", 0, 100⟩, .insert 0 ['X']⟩).operation
        (applyTextOp ⟨⟨"c1", "a", 0, 100⟩, .insert 0 ['X']⟩ []) ≠
      applyTextOp
        (transformTextOperation
          ⟨⟨"c1", "a", 0, 100⟩, .insert 0 ['X']⟩
          ⟨⟨"c2", "b", 0, 100⟩, .insert 0 ['Y']⟩).operation
        (applyTextOp ⟨⟨"c2", "b", 0, 100⟩, .insert 0 ['Y']⟩ []) := by
  decide

/-- Claim C2 (code bug evaluation): the server-side rebase never
transforms anything — DocumentManager.transformOperation returns every
inbound operation unchanged for every document state, because
transformOperationPair is a stub — while the kind-appropriate transform
on the same concrete input (inbound insert at 5 against a retained
insert of three characters at 0) would shift the position to 8. -/
theorem server_rebase_is_identity :
    (∀ (document : ServerDocumentState Nat Nat) (operation : Operation Nat Nat),
        DocumentManager.transformOperation document operation = operation) ∧
      (transformTextOperation
          ⟨⟨"op2", "b", 0, 100⟩, .insert 5 ['X']⟩
          ⟨⟨"op1", "a", 0, 100⟩, .insert 0 ['a', 'b', 'c']⟩).operation =
        ⟨⟨"op2", "b", 0, 100⟩, .insert 8 ['X']⟩ := by
  refine ⟨fun document operation => ?_, by decide⟩
  unfold DocumentManager.transformOperation
  exact foldl_transformOperationPair operation _

/-- Claim C3 (code bug evaluation): transforming the text insert with
the greater (timestamp, clientId) pair against a concurrent insert at
the same position does not shift its position — the code returns it
unchanged and untransformed, ignoring timestamps and client ids — so
the claimed tie-break shift by the other insert's length never
happens. -/
theorem insert_insert_tie_not_broken :
    transformTextOperation
        ⟨⟨"t2", "b", 0, 100⟩, .insert 0 ['Q']⟩
        ⟨⟨"t1", "a", 0, 100⟩, .insert 0 ['P']⟩ =
      ⟨⟨⟨"t2", "b", 0, 100⟩, .insert 0 ['Q']⟩, false⟩ := by
  decide

/-- Claim C4: applyRemoteOperation on a client document transforms the
inbound operation against each pending local operation in order, applies
the final transformed operation to the shared data, raises the version
to max(version, baseVersion + 1), and leaves the pending buffer
unchanged. -/
theorem applyRemoteOperation_rebases_against_pending :
    ∀ (α β : Type) (doc : CollabDoc α β) (operation : Operation α β),
      CollabDocument.applyRemoteOperation doc operation =
        { sharedData :=
            CollabDocument.applyOperationToSharedData doc.sharedData
              (doc.pendingOperations.foldl
                (fun acc p => CollabDocument.transformOperation acc p) operation)
          version := max doc.version (operation.baseVersion + 1)
          pendingOperations := doc.pendingOperations } := by
  intro α β doc operation
  rfl

/-- Claim C5: transforming a text delete against a concurrent
overlapping delete yields a delete at min(aS, bS) whose length is the
original length minus the overlap (zero when fully covered), and on
the concrete document abcdef, transforming delete(2,3) against
delete(1,3) yields delete(1,1), which applied after delete(1,3)
produces af. -/
theorem transformDeleteDelete_overlap_residual :
    (∀ (mA mB : OpMeta) (pA lA pB lB : Nat),
        min (pA + lA) (pB + lB) > max pA pB →
        (transformTextOperation ⟨mA, .delete pA lA⟩ ⟨mB, .delete pB lB⟩).operation =
          ⟨mA, .delete (min pA pB) (lA - (min (pA + lA) (pB + lB) - max pA pB))⟩) ∧
      ((transformTextOperation
            ⟨⟨"d2", "b", 0, 100⟩, .delete 2 3⟩
            ⟨⟨"d1", "a", 0, 100⟩, .delete 1 3⟩).operation =
          ⟨⟨"d2", "b", 0, 100⟩, .delete 1 1⟩ ∧
        applyTextOp ⟨⟨"d2", "b", 0, 100⟩, .delete 1 1⟩
            (applyTextOp ⟨⟨"d1", "a", 0, 100⟩, .delete 1 3⟩
              ['a', 'b', 'c', 'd', 'e', 'f']) =
          ['a', 'f']) := by
  refine ⟨fun mA mB pA lA pB lB hov => ?_, by decide, by decide⟩
  simp only [transformTextOperation, transformDeleteDelete]
  split_ifs with h1 h2 h3 h4 <;>
    simp only [TextOp.mk.injEq, TextOpKind.delete.injEq, true_and, and_true] <;>
    omega

/-- Witness for claim C5's overlap hypothesis at the concrete input of
the scenario: ranges [2,5) and [1,4) overlap. -/
theorem transformDeleteDelete_overlap_residual_witness :
    (transformTextOperation
        ⟨⟨"w2", "b", 0, 100⟩, .delete 2 3⟩
        ⟨⟨"w1", "a", 0, 100⟩, .delete 1 3⟩).operation =
      ⟨⟨"w2", "b", 0, 100⟩, .delete (min 2 1) (3 - (min (2 + 3) (1 + 3) - max 2 1))⟩ :=
  transformDeleteDelete_overlap_residual.1 ⟨"w2", "b", 0, 100⟩ ⟨"w1", "a", 0, 100⟩
    2 3 1 3 (by decide)

/-- Claim C6: for each of the three shared types, apply(op) sets the
version to max(version, op.baseVersion + 1). -/
theorem apply_version_is_max :
    ∀ (α β : Type) (stT : SharedTextState) (opT : TextOp)
      (stL : SharedListState α) (opL : ListOp α)
      (stM : SharedMapState β) (opM : MapOp β),
      (SharedText.apply stT opT).version = max stT.version (opT.meta.baseVersion + 1) ∧
        (SharedList.apply stL opL).version = max stL.version (opL.meta.baseVersion + 1) ∧
        (SharedMap.apply stM opM).version = max stM.version (opM.meta.baseVersion + 1) := by
  intro α β stT opT stL opL stM opM
  refine ⟨?_, ?_, ?_⟩ <;>
    simp only [SharedText.apply, SharedList.apply, SharedMap.apply] <;>
    split <;> omega

/-- Claim C7: transforming a map set against a concurrent delete of the
same key keeps the set with previousValue rewritten to undefined, and
transforming a map delete against a concurrent set of the same key
keeps the delete with previousValue rewritten to the set's value. -/
theorem map_set_delete_and_delete_set_transform :
    ∀ (β : Type) (mA mB : OpMeta) (k : String) (v w : β)
      (pvA pvB pvC pvD : Option β),
      transformMapOperation ⟨mA, .sub (.set k v pvA)⟩ ⟨mB, .sub (.delete k pvB)⟩ =
          ⟨⟨mA, .sub (.set k v none)⟩, true⟩ ∧
        transformMapOperation ⟨mA, .sub (.delete k pvC)⟩ ⟨mB, .sub (.set k w pvD)⟩ =
          ⟨⟨mA, .sub (.delete k (some w))⟩, true⟩ := by
  intro β mA mB k v w pvA pvB pvC pvD
  constructor <;> simp [transformMapOperation, transformSubVsOp, transformMapFlat]

/-- Claim C8: whenever two consecutive text operations from the same
client are mergeable, composing them yields the single merged operation,
and applying the merged operation to any string equals applying the two
operations in sequence. -/
theorem composeTextOperations_merge_correct :
    ∀ (A B : TextOp) (s : List Char), canMergeOperations A B = true →
      composeTextOperations [A, B] = [mergeOperations A B] ∧
        applyTextOp (mergeOperations A B) s = applyTextOp B (applyTextOp A s) := by
  intro A B s h
  refine ⟨by simp [composeTextOperations, composeLoop, h], ?_⟩
  obtain ⟨mA, kA⟩ := A
  obtain ⟨mB, kB⟩ := B
  cases kA <;> cases kB <;> simp [canMergeOperations] at h
  case insert.insert p1 t1 p2 t2 =>
    simp only [mergeOperations, applyTextOp]
    rw [← h.2]
    exact (splice_insert_insert s t1 t2 p1).symm
  case delete.delete p1 l1 p2 l2 =>
    simp only [mergeOperations, applyTextOp]
    rw [← h.2]
    exact (splice_delete_delete s p1 l1 l2).symm

/-- Witness for claim C8 at a concrete mergeable pair: two adjacent
inserts from client c composed over the string xyz. -/
theorem composeTextOperations_merge_correct_witness :
    composeTextOperations
        [⟨⟨"o1", "c", 0, 100⟩, .insert 1 ['a', 'b']⟩,
          ⟨⟨"o2", "c", 1, 101⟩, .insert 3 ['d']⟩] =
      [mergeOperations ⟨⟨"o1", "c", 0, 100⟩, .insert 1 ['a', 'b']⟩
          ⟨⟨"o2", "c", 1, 101⟩, .insert 3 ['d']⟩] ∧
      applyTextOp
          (mergeOperations ⟨⟨"o1", "c", 0, 100⟩, .insert 1 ['a', 'b']⟩
            ⟨⟨"o2", "c", 1, 101⟩, .insert 3 ['d']⟩) ['x', 'y', 'z'] =
        applyTextOp ⟨⟨"o2", "c", 1, 101⟩, .insert 3 ['d']⟩
          (applyTextOp ⟨⟨"o1", "c", 0, 100⟩, .insert 1 ['a', 'b']⟩ ['x', 'y', 'z']) :=
  composeTextOperations_merge_correct
    ⟨⟨"o1", "c", 0, 100⟩, .insert 1 ['a', 'b']⟩
    ⟨⟨"o2", "c", 1, 101⟩, .insert 3 ['d']⟩ ['x', 'y', 'z'] (by decide)

/-- Claim C9: for a valid position p with an oversized requested length,
SharedText.delete succeeds and clamps the emitted operation's length to
the characters remaining after p, so the deletion never reaches past the
end; SharedList.delete clamps its count the same way. -/
theorem delete_clamps_to_remaining :
    (∀ (st : SharedTextState) (p l : Int),
        0 ≤ p → p < (st.value.length : Int) → (st.value.length : Int) - p < l →
        ∃ r, SharedText.delete st p l = some r ∧
          r.1.kind = .delete p.toNat (st.value.length - p.toNat) ∧
          p.toNat + (st.value.length - p.toNat) ≤ st.value.length) ∧
      (∀ (α : Type) (st : SharedListState α) (p l : Int),
        0 ≤ p → p < (st.items.length : Int) → (st.items.length : Int) - p < l →
        ∃ r, SharedList.delete st p l = some r ∧
          r.1.kind = .delete p.toNat (some (st.items.length - p.toNat)) ∧
          p.toNat + (st.items.length - p.toNat) ≤ st.items.length) := by
  constructor
  · intro st p l hp hlt hl
    simp only [SharedText.delete]
    split_ifs with h1 h2
    · omega
    · omega
    · refine ⟨_, rfl, ?_, by omega⟩
      have : (min l ((st.value.length : Int) - p)).toNat = st.value.length - p.toNat := by
        omega
      rw [this]
  · intro α st p l hp hlt hl
    simp only [SharedList.delete]
    split_ifs with h1 h2
    · omega
    · omega
    · refine ⟨_, rfl, ?_, by omega⟩
      have : (min l ((st.items.length : Int) - p)).toNat = st.items.length - p.toNat := by
        omega
      rw [this]

/-- Witness for claim C9 at a concrete state: deleting five characters
(or items) at position 1 of a three-element value. -/
theorem delete_clamps_to_remaining_witness :
    (∃ r, SharedText.delete ⟨['a', 'b', 'c'], 0, "c"⟩ 1 5 = some r ∧
        r.1.kind = .delete (1 : Int).toNat (['a', 'b', 'c'].length - (1 : Int).toNat) ∧
        (1 : Int).toNat + (['a', 'b', 'c'].length - (1 : Int).toNat) ≤
          ['a', 'b', 'c'].length) ∧
      (∃ r, SharedList.delete (⟨[10, 20, 30], 0, "c"⟩ : SharedListState Nat) 1 5 = some r ∧
        r.1.kind = .delete (1 : Int).toNat (some ([10, 20, 30].length - (1 : Int).toNat)) ∧
        (1 : Int).toNat + ([10, 20, 30].length - (1 : Int).toNat) ≤ [10, 20, 30].length) :=
  ⟨delete_clamps_to_remaining.1 ⟨['a', 'b', 'c'], 0, "c"⟩ 1 5 (by decide) (by decide)
      (by decide),
    delete_clamps_to_remaining.2 Nat ⟨[10, 20, 30], 0, "c"⟩ 1 5 (by decide) (by decide)
      (by decide)⟩

/-- Claim C10 counterexample: a connected client that never
authenticated, on a server configured with authentication required,
receives UNAUTHORIZED — not FORBIDDEN — in response to JOIN_DOCUMENT. -/
theorem join_unauthenticated_when_required_gets_unauthorized :
    (MessageHandler.handleJoinDocument ⟨true, []⟩ [] "c1" "doc1").1 =
        .errorMsg .unauthorized "Authentication required" ∧
      (MessageHandler.handleJoinDocument ⟨true, []⟩ [] "c1" "doc1").1 ≠
        .errorMsg .forbidden "Access denied to document" := by
  decide

/-- Claim C10 as amended: a client absent from the authenticated-clients
registry is always rejected by JOIN_DOCUMENT and never added to the
document — with error code FORBIDDEN when authentication is not
required (the access gate) and UNAUTHORIZED when it is. -/
theorem join_without_authentication_rejected :
    ∀ (required : Bool) (clients docClients : List String)
      (client documentId : String),
      AuthService.isClientAuthenticated ⟨required, clients⟩ client = false →
      MessageHandler.handleJoinDocument ⟨required, clients⟩ docClients client
          documentId =
        (.errorMsg (if required then .unauthorized else .forbidden)
          (if required then "Authentication required"
            else "Access denied to document"),
          docClients) := by
  intro required clients docClients client documentId h
  cases required <;>
    simp [MessageHandler.handleJoinDocument, AuthService.canAccessDocument, h]

/-- Witness for claim C10's amended theorem at a concrete input: an
unregistered client on a server with authentication disabled. -/
theorem join_without_authentication_rejected_witness :
    MessageHandler.handleJoinDocument ⟨false, []⟩ ["other"] "c9" "doc9" =
      (.errorMsg (if false then .unauthorized else .forbidden)
        (if false then "Authentication required" else "Access denied to document"),
        ["other"]) :=
  join_without_authentication_rejected false [] ["other"] "c9" "doc9" (by decide)

end RTC
